import Mathlib

/-!
Verification of the `IF_LET_SOME_RESULT` lint (`clippy_lints/src/if_let_some_result.rs`)

This file gives a shallow embedding of the lint pass `OkIfLet::check_expr`
and proves the specification claims about it.

The embedding models the fragment of the rustc HIR that the lint inspects:
match expressions (with their desugar source), method calls, and tuple-struct
patterns with resolved qualified paths.  Helpers of the repository that live
outside the provided source file (`method_chain_args`, `match_type`,
`snippet_with_applicability`, `span_lint_and_sugg`, `paths::RESULT`) are
modelled from the specification, as marked in their doc comments.
-/

namespace IfLetSomeResult

/-- A source span, identified by its byte offsets (`lo`, `hi`), mirroring
`rustc_span::Span` to the extent the lint uses it. -/
structure Span where
  lo : Nat
  hi : Nat
deriving DecidableEq, Repr

/-- Rust `Span::until`: the span from the start of `self` up to, but excluding,
the start of `other` (`self.lo .. other.lo`). -/
def Span.until (self other : Span) : Span :=
  { lo := self.lo, hi := other.lo }

/-- Rust `Span::with_hi`: `self` with its end replaced by `h`. -/
def Span.with_hi (self : Span) (h : Nat) : Span :=
  { lo := self.lo, hi := h }

/-- Model of `MatchSource`: how a HIR `Match` node arose from surface syntax.
`IfLetDesugar` is the concise `if let` form; `Normal` is an explicit
multi-arm `match`; `WhileLetDesugar` is a `while let` binding. -/
inductive MatchSource where
  | Normal
  | IfLetDesugar
  | WhileLetDesugar
  | ForLoopDesugar
  | TryDesugar
deriving DecidableEq, Repr

/-- Model of `QPath`: a qualified path in a pattern.  The lint only destructures
`QPath::Resolved`; we keep the path as its list of segment names. -/
inductive QPath where
  | Resolved (segments : List String)
  | TypeRelative
deriving DecidableEq, Repr

/-- A HIR pattern.  In the HIR a pattern is a `kind` (`PatKind`) paired with
its source span; here the span is carried in each kind's constructor.
`TupleStruct` carries a qualified path, the sub-patterns, and the position
of a `..` (ddpos), as in `PatKind::TupleStruct`. -/
inductive Pat where
  | TupleStruct (span : Span) (qpath : QPath) (subpats : List Pat) (ddpos : Option Nat)
  | Binding (span : Span) (name : String)
  | Wild (span : Span)

/-- The span of a pattern. -/
def Pat.span : Pat → Span
  | .TupleStruct sp _ _ _ => sp
  | .Binding sp _ => sp
  | .Wild sp => sp

/-- A match arm.  Only the arm's pattern is ever read by the lint; the arm
body is neither inspected nor altered, so it is not carried here. -/
structure Arm where
  pat : Pat

/-- The fragment of `ExprKind`/`Expr` the lint inspects.  In the HIR an
expression is a `kind` paired with its span; here the span is carried in
each kind's constructor.  `MethodCall` matches the HIR era of the source:
a method path segment (its name), the span of the method name and
arguments (the second field, destructured as `ok_span`), and the argument
list whose first element is the receiver. -/
inductive Expr where
  | Match (span : Span) (op : Expr) (body : List Arm) (source : MatchSource)
  | MethodCall (span : Span) (name : String) (methodSpan : Span) (args : List Expr)
  | Other (span : Span)

/-- The span of an expression node. -/
def Expr.span : Expr → Span
  | .Match sp _ _ _ => sp
  | .MethodCall sp _ _ _ => sp
  | .Other sp => sp

/-- A resolved type, as far as the lint needs it: an ADT identified by its
canonical definition path, or anything else. -/
inductive Ty where
  | adt (path : List String)
  | other
deriving DecidableEq, Repr

/-- Model of `paths::RESULT`: the canonical definition path of the success/error sum
type `core::result::Result`. -/
def paths_RESULT : List String := ["core", "result", "Result"]

/-- Model of `Applicability` (from `rustc_errors`): confidence tag on a suggestion. -/
inductive Applicability where
  | MachineApplicable
  | MaybeIncorrect
  | HasPlaceholders
  | Unspecified
deriving DecidableEq, Repr

/-- The lint context: the two external oracles the check consults.
`exprTy` models `cx.tables.expr_ty` (`none` when resolution is
unavailable); `snippet` models source-text extraction for a span
(`none` when the exact text cannot be retrieved). -/
structure Ctx where
  exprTy : Expr → Option Ty
  snippet : Span → Option String

/-- Modelled from the spec: `match_type` (repository code outside the given
source file) tests structural membership of a resolved type against a
canonical type path; it returns `false`, never an error, when the type is
unresolved or resolution is unavailable. -/
def match_type (ty : Option Ty) (path : List String) : Bool :=
  match ty with
  | some (Ty.adt p) => p = path
  | _ => false

/-- Modelled from the spec: `method_chain_args(op, &["ok"])` (repository code
outside the given source file) decomposes the scrutinee's call chain and
finds a zero-argument call with the given method name as the outermost call
of the chain; it returns the receiver on success and `none` otherwise.
An argument list of length one holds exactly the receiver, i.e. the call
takes zero arguments. -/
def method_chain_single (e : Expr) (name : String) : Option Expr :=
  match e with
  | .MethodCall _ nm _ args =>
      if nm = name ∧ args.length = 1 then args.get? 0 else none
  | _ => none

/-- Model of `rustc_hir_pretty::to_string(NO_ANN, |s| s.print_path(x, false))`:
renders a resolved path as literal text, segments joined by `::`. -/
def print_path (segments : List String) : String :=
  String.intercalate ("::") segments

/-- Rust's `str::trim`: strips leading and trailing whitespace. -/
def trim_ws (s : String) : String :=
  String.mk (((s.toList.dropWhile Char.isWhitespace).reverse.dropWhile
    Char.isWhitespace).reverse)

/-- Rust's `str::trim_end_matches('.')`: repeatedly strips a trailing `.`. -/
def trim_end_matches_dot (s : String) : String :=
  String.mk ((s.toList.reverse.dropWhile (fun c => c = '.')).reverse)

/-- Modelled from the spec: `snippet_with_applicability` (repository code
outside the given source file) extracts the literal source text of a span;
when extraction falls back to the default placeholder it downgrades the
applicability from "safe to auto-apply" to "requires human review"
(`HasPlaceholders`).  Returns the text together with the updated
applicability. -/
def snippet_with_applicability (cx : Ctx) (span : Span) (default : String)
    (applicability : Applicability) : String × Applicability :=
  match cx.snippet span with
  | some s => (s, applicability)
  | none =>
      (default,
        if applicability = Applicability.MachineApplicable then
          Applicability.HasPlaceholders
        else applicability)

/-- A diagnostic record as handed to the external sink. -/
structure Diagnostic where
  span : Span
  msg : String
  help : String
  sugg : String
  applicability : Applicability
deriving DecidableEq, Repr

/-- Modelled from the spec: `span_lint_and_sugg` (repository code outside the
given source file) forwards the span, message, help text, suggestion and
applicability verbatim to the external diagnostics sink, exactly once. -/
def span_lint_and_sugg (span : Span) (msg help sugg : String)
    (applicability : Applicability) : Diagnostic :=
  { span := span, msg := msg, help := help, sugg := sugg,
    applicability := applicability }

/-- Outcome of one invocation of the check on one node: silence (`noMatch`),
one forwarded diagnostic (`emitted`), or an out-of-bounds indexing of the
host's slices (`panicked`, for `body[0]` / `args[0]` / `y[0]`). -/
inductive CheckResult where
  | panicked
  | noMatch
  | emitted (d : Diagnostic)
deriving DecidableEq, Repr

/-- Whether a check outcome carries a diagnostic. -/
def CheckResult.isEmitted : CheckResult → Bool
  | .emitted _ => true
  | _ => false

/-- The body of `OkIfLet::check_expr`, instrumented: the second component
counts the queries made to the type oracle (`cx.tables.expr_ty`).  The
control flow mirrors the source `if_chain!` line by line:

1. `if let ExprKind::Match(ref op, ref body, source) = expr.kind;`
2. `if let MatchSource::IfLetDesugar { .. } = source;`
3. `if let ExprKind::MethodCall(_, ok_span, ref result_types) = op.kind;`
4. `if let PatKind::TupleStruct(QPath::Resolved(_, ref x), ref y, _) = body[0].pat.kind;`
   (the indexing `body[0]` panics when the arm list is empty)
5. `if method_chain_args(op, &["ok"]).is_some();`
6. `let is_result_type = match_type(cx, cx.tables.expr_ty(&result_types[0]), &paths::RESULT);`
   (the one type-oracle query; `result_types[0]` panics when the
   argument list is empty)
7. `if rustc_hir_pretty::to_string(...print_path(x, false)) == "Some" && is_result_type;`

then builds the suggestion from the snippets of `y[0].span` (panics when
the sub-pattern list is empty) and `op.span.until(ok_span)`, and calls
`span_lint_and_sugg` on `expr.span.with_hi(op.span.hi())`. -/
def check_expr_aux (cx : Ctx) (expr : Expr) : CheckResult × Nat :=
  match expr with
  | .Match _ op body source =>
    match source with
    | .IfLetDesugar =>
      match op with
      | .MethodCall _ _ ok_span result_types =>
        match body.get? 0 with
        | none => (.panicked, 0)
        | some arm0 =>
          match arm0.pat with
          | .TupleStruct _ (.Resolved x) y _ =>
            if (method_chain_single op ("ok")).isSome then
              match result_types.get? 0 with
              | none => (.panicked, 0)
              | some recv =>
                let is_result_type := match_type (cx.exprTy recv) paths_RESULT
                if print_path x == "Some" && is_result_type then
                  match y.get? 0 with
                  | none => (.panicked, 1)
                  | some y0 =>
                    let app0 := Applicability.MachineApplicable
                    let r1 := snippet_with_applicability cx y0.span ("") app0
                    let r2 := snippet_with_applicability cx
                      (Span.until op.span ok_span) "" r1.2
                    let sugg := "if let Ok(" ++ r1.1 ++ ") = "
                      ++ trim_end_matches_dot (trim_ws r2.1)
                    (.emitted (span_lint_and_sugg
                      (Span.with_hi expr.span op.span.hi)
                      "Matching on `Some` with `ok()` is redundant"
                      ("Consider matching on `Ok(" ++ r1.1
                        ++ ")` and removing the call to `ok` instead")
                      sugg r2.2), 1)
                else (.noMatch, 1)
            else (.noMatch, 0)
          | _ => (.noMatch, 0)
      | _ => (.noMatch, 0)
    | _ => (.noMatch, 0)
  | _ => (.noMatch, 0)

/-- Model of `OkIfLet::check_expr`: the outcome of the check on one node. -/
def check_expr (cx : Ctx) (expr : Expr) : CheckResult :=
  (check_expr_aux cx expr).1

/-- How many times the check queried the external type oracle on this node. -/
def type_queries (cx : Ctx) (expr : Expr) : Nat :=
  (check_expr_aux cx expr).2

/-- The diagnostic the then-branch of `check_expr` builds, as a function of
the context and the four spans it reads (the whole expression's span, the
scrutinee's span, the method-name span of the `ok` call, and the span of
the arm's first sub-pattern).  Definitionally equal to the inline
construction in `check_expr_aux`. -/
def build_diag (cx : Ctx) (exprSpan opSpan ok_span y0span : Span) : Diagnostic :=
  let r1 := snippet_with_applicability cx y0span ("") Applicability.MachineApplicable
  let r2 := snippet_with_applicability cx (Span.until opSpan ok_span) "" r1.2
  let sugg := "if let Ok(" ++ r1.1 ++ ") = " ++ trim_end_matches_dot (trim_ws r2.1)
  span_lint_and_sugg (Span.with_hi exprSpan opSpan.hi)
    "Matching on `Some` with `ok()` is redundant"
    ("Consider matching on `Ok(" ++ r1.1 ++ ")` and removing the call to `ok` instead")
    sugg r2.2

/-- The structural pre-conditions of the matcher that come strictly before
the type-oracle query in the `if_chain!`: if-let desugar, method-call
scrutinee, first arm readable with a tuple-struct pattern on a resolved
path, and an outermost zero-argument `ok` call.  (The textual `"Some"`
comparison is *not* among them: the source computes `is_result_type`
before testing the rendered path name.) -/
def struct_pre (e : Expr) : Bool :=
  match e with
  | .Match _ op body .IfLetDesugar =>
    match op with
    | .MethodCall _ _ _ _ =>
      match body.get? 0 with
      | some arm0 =>
        match arm0.pat with
        | .TupleStruct _ (.Resolved _) _ _ => (method_chain_single op ("ok")).isSome
        | _ => false
      | none => false
    | _ => false
  | _ => false

/-- Host invariant: an if-let-desugared match carries at least one arm.
(Checked at the top node only, which is all the lint reads.) -/
def arms_nonempty_inv (e : Expr) : Bool :=
  match e with
  | .Match _ _ body _ => !body.isEmpty
  | _ => true

/-- The additional invariant the source needs to avoid the `y[0]` indexing
panic: if the first arm's pattern is a tuple-struct on a resolved path that
renders to `"Some"`, it has at least one sub-pattern. -/
def some_pat_subpats_inv (e : Expr) : Bool :=
  match e with
  | .Match _ _ body _ =>
    match body.get? 0 with
    | some arm0 =>
      match arm0.pat with
      | .TupleStruct _ (.Resolved x) y _ => !(print_path x == "Some") || !y.isEmpty
      | _ => true
    | none => true
  | _ => true

/-! Concrete fixtures.

A worked instance of scenario 1 of the spec,
`if let Some(value) = input.parse().ok() { vec.push(value) }`, plus
variations used to exhibit behaviour on edge shapes.  Offsets index the
scenario's source text. -/

/-- The receiver `input.parse()` of the `ok` call. -/
def recvGood : Expr := .MethodCall ⟨21, 34⟩ "parse" ⟨27, 34⟩ [Expr.Other ⟨21, 26⟩]

/-- The scrutinee `input.parse().ok()`. -/
def opGood : Expr := .MethodCall ⟨21, 40⟩ "ok" ⟨35, 40⟩ [recvGood]

/-- The arm pattern `Some(value)`. -/
def patGood : Pat :=
  .TupleStruct ⟨7, 18⟩ (.Resolved ["Some"]) [.Binding ⟨12, 17⟩ "value"] none

/-- The single if-let arm. -/
def armGood : Arm := ⟨patGood⟩

/-- The whole if-let expression node. -/
def eGood : Expr := .Match ⟨0, 60⟩ opGood [armGood] .IfLetDesugar

/-- A context in which every expression resolves to `Result` and the two
spans the check reads have retrievable source text. -/
def cxGood : Ctx :=
  ⟨fun _ => some (.adt paths_RESULT),
   fun s => if s = ⟨12, 17⟩ then some ("value")
            else if s = ⟨21, 35⟩ then some ("input.parse().") else none⟩

/-- The diagnostic the check produces on `eGood` under `cxGood`. -/
def dGood : Diagnostic :=
  ⟨⟨0, 40⟩, "Matching on `Some` with `ok()` is redundant",
   "Consider matching on `Ok(value)` and removing the call to `ok` instead",
   "if let Ok(value) = input.parse()", .MachineApplicable⟩

/-- A context in which no type resolves and no snippet is retrievable. -/
def cxNone : Ctx := ⟨fun _ => none, fun _ => none⟩

/-- Two sub-patterns, as in the ill-arity pattern `Some(a, b)`. -/
def subTwo : List Pat := [.Binding ⟨12, 13⟩ "a", .Binding ⟨15, 16⟩ "b"]

/-- The arm pattern `Some(a, b)` — not exactly one sub-pattern. -/
def patTwo : Pat := .TupleStruct ⟨7, 21⟩ (.Resolved ["Some"]) subTwo none

/-- Node for `if let Some(a, b) = input.parse().ok() { .. }`: an if-let node whose
arm pattern has two sub-patterns. -/
def eTwo : Expr := .Match ⟨0, 62⟩ opGood [⟨patTwo⟩] .IfLetDesugar

/-- The diagnostic the check produces on `eTwo` under `cxGood`: the first
sub-pattern's span has no retrievable snippet there, so the inner text
falls back to the empty default and applicability is downgraded. -/
def dTwo : Diagnostic :=
  ⟨⟨0, 40⟩, "Matching on `Some` with `ok()` is redundant",
   "Consider matching on `Ok()` and removing the call to `ok` instead",
   "if let Ok() = input.parse()", .HasPlaceholders⟩

/-- The arm pattern `Foo(v)`: a tuple-struct pattern whose path renders to
`"Foo"`, not `"Some"`. -/
def patFoo : Pat := .TupleStruct ⟨7, 13⟩ (.Resolved ["Foo"]) [.Binding ⟨11, 12⟩ "v"] none

/-- Node for `if let Foo(v) = input.parse().ok() { .. }`. -/
def eFoo : Expr := .Match ⟨0, 60⟩ opGood [⟨patFoo⟩] .IfLetDesugar

/-- The arm pattern `Some()`: renders to `"Some"` but has no sub-pattern. -/
def patNoSub : Pat := .TupleStruct ⟨7, 13⟩ (.Resolved ["Some"]) [] none

/-- Node for `if let Some() = input.parse().ok() { .. }`: one arm, receiver present. -/
def eNoSub : Expr := .Match ⟨0, 60⟩ opGood [⟨patNoSub⟩] .IfLetDesugar

/-- The arm pattern `Ok(value)` of the suggested replacement. -/
def patOk : Pat := .TupleStruct ⟨7, 16⟩ (.Resolved ["Ok"]) [.Binding ⟨10, 15⟩ "value"] none

/-- The arm of the suggested replacement. -/
def armOk : Arm := ⟨patOk⟩

/-- Node for `if let Ok(value) = input.parse() { .. }`: the already-rewritten form the
suggestion of `eGood` produces. -/
def eRewritten : Expr := .Match ⟨0, 50⟩ recvGood [armOk] .IfLetDesugar

/-- Node for `match input.parse().ok() { Some(value) => .., .. }`: the explicit
multi-arm surface form (desugar origin `Normal`), structurally identical
otherwise. -/
def eMulti : Expr := .Match ⟨0, 60⟩ opGood [armGood] .Normal

/-- Inversion: whenever the check emits a diagnostic, the node had exactly
the shape the `if_chain!` requires, and the diagnostic is the one the
then-branch builds. -/
lemma check_emitted_inv (cx : Ctx) (e : Expr) (d : Diagnostic)
    (h : check_expr cx e = CheckResult.emitted d) :
    ∃ sp opSp okSp args body arm0 psp x y dd recv y0,
      e = Expr.Match sp (Expr.MethodCall opSp "ok" okSp args) body
            MatchSource.IfLetDesugar ∧
      body.get? 0 = some arm0 ∧
      arm0.pat = Pat.TupleStruct psp (QPath.Resolved x) y dd ∧
      args.length = 1 ∧
      args.get? 0 = some recv ∧
      print_path x = "Some" ∧
      match_type (cx.exprTy recv) paths_RESULT = true ∧
      y.get? 0 = some y0 ∧
      d = build_diag cx sp opSp okSp y0.span := by
  unfold check_expr check_expr_aux at h
  cases e with
  | Other sp => simp at h
  | MethodCall sp nm ms args => simp at h
  | Match sp op body src =>
    cases src with
    | Normal => simp at h
    | WhileLetDesugar => simp at h
    | ForLoopDesugar => simp at h
    | TryDesugar => simp at h
    | IfLetDesugar =>
      cases op with
      | Other osp => simp at h
      | Match osp oop obody osrc => simp at h
      | MethodCall opSp nm okSp args =>
        simp only [] at h
        cases hb : body.get? 0 with
        | none => rw [hb] at h; simp at h
        | some arm0 =>
          rw [hb] at h
          simp only [] at h
          cases hp : arm0.pat with
          | Binding bsp bn => rw [hp] at h; simp at h
          | Wild wsp => rw [hp] at h; simp at h
          | TupleStruct psp q y dd =>
            rw [hp] at h
            cases q with
            | TypeRelative => simp at h
            | Resolved x =>
              simp only [] at h
              by_cases hm : (method_chain_single
                  (Expr.MethodCall opSp nm okSp args) "ok").isSome = true
              · rw [if_pos hm] at h
                have hnm : nm = "ok" ∧ args.length = 1 := by
                  unfold method_chain_single at hm
                  simp only [] at hm
                  by_cases hc : nm = "ok" ∧ args.length = 1
                  · exact hc
                  · rw [if_neg hc] at hm; simp at hm
                cases args with
                | nil => exact absurd hnm.2 (by simp)
                | cons a as =>
                  have hr : (a :: as).get? 0 = some a := rfl
                  rw [hr] at h
                  simp only [] at h
                  by_cases hsome : ((print_path x == "Some")
                      && match_type (cx.exprTy a) paths_RESULT) = true
                  · rw [if_pos hsome] at h
                    cases hy : y.get? 0 with
                    | none => rw [hy] at h; simp at h
                    | some y0 =>
                      rw [hy] at h
                      simp only [] at h
                      refine ⟨sp, opSp, okSp, a :: as, body, arm0, psp, x, y, dd,
                        a, y0, ?_, hb, hp, hnm.2, hr, ?_, ?_, hy, ?_⟩
                      · rw [hnm.1]
                      · exact eq_of_beq ((Bool.and_eq_true _ _).mp hsome).1
                      · exact ((Bool.and_eq_true _ _).mp hsome).2
                      · injection h with h
                        exact h.symm
                  · rw [if_neg hsome] at h; simp at h
              · rw [if_neg hm] at h; simp at h


/-- C1:  For every expression node whose scrutinee is a method call, if
the receiver of the trailing call does not resolve to the canonical
success/error sum type `Result` — including when the type is unresolved
(`exprTy` returns `none`) — the check emits no diagnostic, even if every
structural condition holds and the outer call is named `ok`. -/
theorem no_emit_when_receiver_not_result (cx : Ctx) (sp opSp okSp : Span)
    (nm : String) (args : List Expr) (body : List Arm) (src : MatchSource)
    (recv : Expr) (hrecv : args.get? 0 = some recv)
    (hty : match_type (cx.exprTy recv) paths_RESULT = false) :
    (check_expr cx (Expr.Match sp (Expr.MethodCall opSp nm okSp args)
      body src)).isEmitted = false := by
  cases hE : check_expr cx (Expr.Match sp (Expr.MethodCall opSp nm okSp args)
      body src) with
  | panicked => rfl
  | noMatch => rfl
  | emitted d =>
    exfalso
    obtain ⟨sp', opSp', okSp', args', body', arm0, psp, x, y, dd, recv', y0,
      heq, hb, hp, hlen, hr, hxs, hmt, hy, hd⟩ := check_emitted_inv _ _ _ hE
    injection heq with h1 h2 h3 h4
    injection h2 with g1 g2 g3 g4
    subst g4
    rw [hrecv] at hr
    injection hr with hr
    subst hr
    rw [hty] at hmt
    exact Bool.noConfusion hmt

/-- Witness for C1: on the worked example but with type resolution
unavailable, the check stays silent. -/
theorem no_emit_when_receiver_not_result_witness :
    match_type (cxNone.exprTy recvGood) paths_RESULT = false ∧
    (check_expr cxNone (Expr.Match ⟨0, 60⟩
      (Expr.MethodCall ⟨21, 40⟩ "ok" ⟨35, 40⟩ [recvGood]) [armGood]
      MatchSource.IfLetDesugar)).isEmitted = false :=
  ⟨rfl, no_emit_when_receiver_not_result cxNone ⟨0, 60⟩ ⟨21, 40⟩ ⟨35, 40⟩
    "ok" [recvGood] [armGood] MatchSource.IfLetDesugar recvGood rfl rfl⟩

/-- C2:  For every match expression node whose desugar origin is not the
concise if-let surface form (explicit multi-arm match, while-let binding,
for-loop or try desugar), the matcher returns no-match and no diagnostic is
emitted, even if the tree shape is otherwise identical. -/
theorem noMatch_of_not_if_let_desugar (cx : Ctx) (sp : Span) (op : Expr)
    (body : List Arm) (src : MatchSource)
    (h : src ≠ MatchSource.IfLetDesugar) :
    check_expr cx (Expr.Match sp op body src) = CheckResult.noMatch := by
  cases src with
  | IfLetDesugar => exact absurd rfl h
  | Normal => rfl
  | WhileLetDesugar => rfl
  | ForLoopDesugar => rfl
  | TryDesugar => rfl

/-- Witness for C2: the explicit multi-arm form of the worked example
(scenario 3 of the spec) yields no-match. -/
theorem noMatch_of_not_if_let_desugar_witness :
    MatchSource.Normal ≠ MatchSource.IfLetDesugar ∧
    check_expr cxGood (Expr.Match ⟨0, 60⟩ opGood [armGood] MatchSource.Normal)
      = CheckResult.noMatch :=
  ⟨by decide, noMatch_of_not_if_let_desugar cxGood ⟨0, 60⟩ opGood [armGood]
    MatchSource.Normal (by decide)⟩

/-- Counterexample to C3 as stated: on `if let Some(a, b) = input.parse().ok()`
the first arm's pattern has two sub-patterns, not exactly one, yet the check
still reports a match (the claim demands no-match there). -/
theorem tuple_pattern_arity_not_checked :
    subTwo.length = 2 ∧ check_expr cxGood eTwo = CheckResult.emitted dTwo := by
  constructor
  · decide
  · decide

/-- C3, amended:  A match is reported only when the examined (first)
arm's pattern is a tuple-struct pattern with a resolved qualified path that
renders, as literal text, to exactly `"Some"`, and that pattern has at
least one sub-pattern; the sub-pattern count is not otherwise checked —
a pattern with extra sub-patterns still matches, and only the first
sub-pattern is used in the suggestion. -/
theorem emit_requires_some_pattern (cx : Ctx) (e : Expr) (d : Diagnostic)
    (h : check_expr cx e = CheckResult.emitted d) :
    ∃ sp op body src arm0 psp x y dd,
      e = Expr.Match sp op body src ∧
      body.get? 0 = some arm0 ∧
      arm0.pat = Pat.TupleStruct psp (QPath.Resolved x) y dd ∧
      print_path x = "Some" ∧ 1 ≤ y.length := by
  obtain ⟨sp, opSp, okSp, args, body, arm0, psp, x, y, dd, recv, y0,
    heq, hb, hp, hlen, hr, hxs, hmt, hy, hd⟩ := check_emitted_inv _ _ _ h
  refine ⟨sp, _, body, _, arm0, psp, x, y, dd, heq, hb, hp, hxs, ?_⟩
  cases y with
  | nil => exact absurd hy (by simp)
  | cons a as => simp

/-- Witness for C3 (amended): the worked example emits, and its arm pattern
indeed is a resolved tuple-struct rendering to `"Some"` with a sub-pattern. -/
theorem emit_requires_some_pattern_witness :
    ∃ sp op body src arm0 psp x y dd,
      eGood = Expr.Match sp op body src ∧
      body.get? 0 = some arm0 ∧
      arm0.pat = Pat.TupleStruct psp (QPath.Resolved x) y dd ∧
      print_path x = "Some" ∧ 1 ≤ y.length :=
  emit_requires_some_pattern cxGood eGood dGood (by decide)

/-- C4:  A match is reported only when the scrutinee's call chain has,
as its outermost call, a zero-argument method call named `ok` (an argument
list of length one: the receiver alone); any other scrutinee shape yields
no report. -/
theorem emit_requires_outermost_ok_call (cx : Ctx) (e : Expr) (d : Diagnostic)
    (h : check_expr cx e = CheckResult.emitted d) :
    ∃ sp opSp okSp args body,
      e = Expr.Match sp (Expr.MethodCall opSp "ok" okSp args) body
            MatchSource.IfLetDesugar ∧ args.length = 1 := by
  obtain ⟨sp, opSp, okSp, args, body, arm0, psp, x, y, dd, recv, y0,
    heq, hb, hp, hlen, hr, hxs, hmt, hy, hd⟩ := check_emitted_inv _ _ _ h
  exact ⟨sp, opSp, okSp, args, body, heq, hlen⟩

/-- Witness for C4: the worked example emits, and its scrutinee's outermost
call is a zero-argument `ok` call. -/
theorem emit_requires_outermost_ok_call_witness :
    ∃ sp opSp okSp args body,
      eGood = Expr.Match sp (Expr.MethodCall opSp "ok" okSp args) body
            MatchSource.IfLetDesugar ∧ args.length = 1 :=
  emit_requires_outermost_ok_call cxGood eGood dGood (by decide)


/-- C5:  For every successful match in which both snippet extractions
succeed, the emitted replacement string equals
`if let Ok(<inner>) = <prefix>`, where `<inner>` is byte-identical to the
source text of the arm's first sub-pattern span and `<prefix>` is the
source text from the scrutinee's start up to, but excluding, the `ok()`
call segment, whitespace-trimmed and with trailing `.` separators
stripped. -/
theorem sugg_preserves_snippets (cx : Ctx) (sp opSp okSp : Span)
    (args : List Expr) (body : List Arm) (d : Diagnostic)
    (arm0 : Arm) (psp : Span) (x : List String) (y : List Pat)
    (dd : Option Nat) (y0 : Pat) (inner pre : String)
    (hb : body.get? 0 = some arm0)
    (hp : arm0.pat = Pat.TupleStruct psp (QPath.Resolved x) y dd)
    (hy : y.get? 0 = some y0)
    (h : check_expr cx (Expr.Match sp (Expr.MethodCall opSp "ok" okSp args)
          body MatchSource.IfLetDesugar) = CheckResult.emitted d)
    (hin : cx.snippet y0.span = some inner)
    (hpre : cx.snippet (Span.until opSp okSp) = some pre) :
    d.sugg = "if let Ok(" ++ inner ++ ") = "
      ++ trim_end_matches_dot (trim_ws pre) := by
  obtain ⟨sp', opSp', okSp', args', body', arm0', psp', x', y', dd', recv', y0',
    heq, hb', hp', hlen', hr', hxs', hmt', hy', hd⟩ := check_emitted_inv _ _ _ h
  injection heq with h1 h2 h3 h4
  injection h2 with g1 g2 g3 g4
  subst h1 g1 g3 g4 h3
  rw [hb] at hb'
  injection hb' with hb'
  subst hb'
  rw [hp] at hp'
  injection hp' with p1 p2 p3 p4
  injection p2 with p2
  subst p2 p3
  rw [hy] at hy'
  injection hy' with hy'
  subst hy'
  subst hd
  simp [build_diag, snippet_with_applicability, span_lint_and_sugg, hin, hpre]

/-- Witness for C5: on the worked example the suggestion is rebuilt from the
verbatim snippets `value` and `input.parse().`. -/
theorem sugg_preserves_snippets_witness :
    check_expr cxGood eGood = CheckResult.emitted dGood ∧
    dGood.sugg = "if let Ok(" ++ "value" ++ ") = "
      ++ trim_end_matches_dot (trim_ws ("input.parse().")) :=
  ⟨by decide,
   sugg_preserves_snippets cxGood ⟨0, 60⟩ ⟨21, 40⟩ ⟨35, 40⟩ [recvGood]
     [armGood] dGood armGood ⟨7, 18⟩ ["Some"] [.Binding ⟨12, 17⟩ "value"]
     none (.Binding ⟨12, 17⟩ "value") "value" "input.parse()." rfl rfl rfl
     (by decide) (by decide) (by decide)⟩

/-- C6:  For every emitted diagnostic, the applicability tag is
`MachineApplicable` ("safe to auto-apply") if and only if both snippet
extractions (the first sub-pattern span and the scrutinee-prefix span)
succeeded without the fallback placeholder; a fallback still emits, but
with the applicability downgraded. -/
theorem applicability_machine_iff_snippets (cx : Ctx) (sp opSp okSp : Span)
    (args : List Expr) (body : List Arm) (d : Diagnostic)
    (arm0 : Arm) (psp : Span) (x : List String) (y : List Pat)
    (dd : Option Nat) (y0 : Pat)
    (hb : body.get? 0 = some arm0)
    (hp : arm0.pat = Pat.TupleStruct psp (QPath.Resolved x) y dd)
    (hy : y.get? 0 = some y0)
    (h : check_expr cx (Expr.Match sp (Expr.MethodCall opSp "ok" okSp args)
          body MatchSource.IfLetDesugar) = CheckResult.emitted d) :
    d.applicability = Applicability.MachineApplicable ↔
      (cx.snippet y0.span).isSome = true ∧
      (cx.snippet (Span.until opSp okSp)).isSome = true := by
  obtain ⟨sp', opSp', okSp', args', body', arm0', psp', x', y', dd', recv', y0',
    heq, hb', hp', hlen', hr', hxs', hmt', hy', hd⟩ := check_emitted_inv _ _ _ h
  injection heq with h1 h2 h3 h4
  injection h2 with g1 g2 g3 g4
  subst h1 g1 g3 g4 h3
  rw [hb] at hb'
  injection hb' with hb'
  subst hb'
  rw [hp] at hp'
  injection hp' with p1 p2 p3 p4
  injection p2 with p2
  subst p2 p3
  rw [hy] at hy'
  injection hy' with hy'
  subst hy'
  subst hd
  cases hs1 : cx.snippet y0.span with
  | none =>
    cases hs2 : cx.snippet (Span.until opSp okSp) with
    | none =>
      simp [build_diag, snippet_with_applicability, span_lint_and_sugg,
        hs1, hs2]
    | some pre =>
      simp [build_diag, snippet_with_applicability, span_lint_and_sugg,
        hs1, hs2]
  | some inner =>
    cases hs2 : cx.snippet (Span.until opSp okSp) with
    | none =>
      simp [build_diag, snippet_with_applicability, span_lint_and_sugg,
        hs1, hs2]
    | some pre =>
      simp [build_diag, snippet_with_applicability, span_lint_and_sugg,
        hs1, hs2]

/-- Witness for C6: on the two-sub-pattern variant the inner span's snippet
is unavailable, and indeed the diagnostic is still emitted with the
applicability downgraded to `HasPlaceholders` (both sides of the
equivalence are false). -/
theorem applicability_machine_iff_snippets_witness :
    check_expr cxGood eTwo = CheckResult.emitted dTwo ∧
    (dTwo.applicability = Applicability.MachineApplicable ↔
      (cxGood.snippet (Pat.Binding ⟨12, 13⟩ "a").span).isSome = true ∧
      (cxGood.snippet (Span.until ⟨21, 40⟩ ⟨35, 40⟩)).isSome = true) :=
  ⟨by decide,
   applicability_machine_iff_snippets cxGood ⟨0, 62⟩ ⟨21, 40⟩ ⟨35, 40⟩
     [recvGood] [⟨patTwo⟩] dTwo ⟨patTwo⟩ ⟨7, 21⟩ ["Some"] subTwo none
     (.Binding ⟨12, 13⟩ "a") rfl rfl rfl (by decide)⟩

/-- C7:  For every successful match exactly one diagnostic is forwarded
to the sink (the `emitted` outcome carries a single `Diagnostic`), and its
span is the original expression's span truncated so its end coincides with
the end of the scrutinee; on no-match nothing is emitted. -/
theorem diag_span_ends_at_scrutinee (cx : Ctx) (e : Expr) (d : Diagnostic)
    (sp : Span) (op : Expr) (body : List Arm) (src : MatchSource)
    (he : e = Expr.Match sp op body src)
    (h : check_expr cx e = CheckResult.emitted d) :
    d.span = Span.with_hi sp (Expr.span op).hi := by
  subst he
  obtain ⟨sp', opSp', okSp', args', body', arm0', psp', x', y', dd', recv', y0',
    heq, hb', hp', hlen', hr', hxs', hmt', hy', hd⟩ := check_emitted_inv _ _ _ h
  injection heq with h1 h2 h3 h4
  subst h1 h2
  subst hd
  simp [build_diag, span_lint_and_sugg, Expr.span]

/-- Witness for C7: on the worked example the reported span is
`⟨0, 40⟩` — the if-let node's start, cut at the scrutinee's end. -/
theorem diag_span_ends_at_scrutinee_witness :
    check_expr cxGood eGood = CheckResult.emitted dGood ∧
    dGood.span = Span.with_hi ⟨0, 60⟩ (Expr.span opGood).hi :=
  ⟨by decide,
   diag_span_ends_at_scrutinee cxGood eGood dGood ⟨0, 60⟩ opGood [armGood]
     MatchSource.IfLetDesugar rfl (by decide)⟩


/-- Counterexample to C8 as stated: on `if let Foo(v) = input.parse().ok()`
the structural precondition "arm pattern renders to `Some`" fails — no
diagnostic results — yet the type oracle is still queried once, because the
source computes `is_result_type` *before* comparing the rendered path name. -/
theorem type_oracle_queried_on_non_some_pattern :
    print_path ["Foo"] ≠ "Some" ∧
    check_expr cxGood eFoo = CheckResult.noMatch ∧
    type_queries cxGood eFoo = 1 :=
  ⟨by decide, by decide, by decide⟩

/-- C8, amended:  The match conditions are evaluated in short-circuit
order and the type oracle is consulted only after the earlier structural
conditions pass: whenever the node is not an if-let desugar, or the
scrutinee is not a method call, or the first arm's pattern is not a
tuple-struct on a resolved path, or the outermost chain call is not a
zero-argument `ok`, the oracle is never queried.  The textual `"Some"`
comparison, however, happens *after* the query: a tuple-struct pattern
rendering to another name still triggers exactly one type query. -/
theorem no_type_query_when_struct_pre_fails (cx : Ctx) (e : Expr)
    (h : struct_pre e = false) : type_queries cx e = 0 := by
  unfold struct_pre at h
  unfold type_queries check_expr_aux
  cases e with
  | Other sp => rfl
  | MethodCall sp nm ms args => rfl
  | Match sp op body src =>
    cases src with
    | Normal => rfl
    | WhileLetDesugar => rfl
    | ForLoopDesugar => rfl
    | TryDesugar => rfl
    | IfLetDesugar =>
      cases op with
      | Other osp => rfl
      | Match osp oop obody osrc => rfl
      | MethodCall opSp nm okSp args =>
        simp only [] at h ⊢
        cases hb : body.get? 0 with
        | none => rfl
        | some arm0 =>
          rw [hb] at h
          simp only [] at h ⊢
          cases hp : arm0.pat with
          | Binding bsp bn => rfl
          | Wild wsp => rfl
          | TupleStruct psp q y dd =>
            rw [hp] at h
            cases q with
            | TypeRelative => rfl
            | Resolved x =>
              simp only [] at h ⊢
              rw [h]
              rfl

/-- Witness for C8 (amended): the explicit multi-arm variant of the worked
example fails the structural preconditions and triggers no type query. -/
theorem no_type_query_when_struct_pre_fails_witness :
    struct_pre eMulti = false ∧ type_queries cxGood eMulti = 0 :=
  ⟨by decide, no_type_query_when_struct_pre_fails cxGood eMulti (by decide)⟩

/-- C9:  The detection is idempotent: on an if-let node whose first arm
binds a tuple-struct pattern rendering to `"Ok"` (as in the suggested
replacement `if let Ok(<inner>) = <prefix>`), the check yields no-match,
so already-rewritten code is never re-matched. -/
theorem no_rematch_on_ok_pattern (cx : Ctx) (sp : Span) (op : Expr)
    (body : List Arm) (src : MatchSource) (arm0 : Arm) (psp : Span)
    (x : List String) (y : List Pat) (dd : Option Nat)
    (hb : body.get? 0 = some arm0)
    (hp : arm0.pat = Pat.TupleStruct psp (QPath.Resolved x) y dd)
    (hx : print_path x = "Ok") :
    check_expr cx (Expr.Match sp op body src) = CheckResult.noMatch := by
  unfold check_expr check_expr_aux
  cases src with
  | Normal => rfl
  | WhileLetDesugar => rfl
  | ForLoopDesugar => rfl
  | TryDesugar => rfl
  | IfLetDesugar =>
    cases op with
    | Other osp => rfl
    | Match osp oop obody osrc => rfl
    | MethodCall opSp nm okSp args =>
      simp only []
      rw [hb]
      simp only []
      rw [hp]
      simp only []
      by_cases hm : (method_chain_single
          (Expr.MethodCall opSp nm okSp args) "ok").isSome = true
      · rw [if_pos hm]
        have hargs : nm = "ok" ∧ args.length = 1 := by
          unfold method_chain_single at hm
          simp only [] at hm
          by_cases hc : nm = "ok" ∧ args.length = 1
          · exact hc
          · rw [if_neg hc] at hm; simp at hm
        cases args with
        | nil => exact absurd hargs.2 (by simp)
        | cons a as =>
          have hget : (a :: as).get? 0 = some a := rfl
          rw [hget]
          simp only []
          have hcond : ((print_path x == "Some")
              && match_type (cx.exprTy a) paths_RESULT) = false := by
            have hne : (print_path x == "Some") = false := by
              rw [hx]; decide
            rw [hne, Bool.false_and]
          rw [hcond]
          rfl
      · rw [if_neg hm]

/-- Witness for C9: running the check on the rewritten form of the worked
example, `if let Ok(value) = input.parse()`, yields no-match. -/
theorem no_rematch_on_ok_pattern_witness :
    print_path ["Ok"] = "Ok" ∧
    check_expr cxGood eRewritten = CheckResult.noMatch :=
  ⟨by decide,
   no_rematch_on_ok_pattern cxGood ⟨0, 50⟩ recvGood [armOk]
     MatchSource.IfLetDesugar armOk ⟨7, 16⟩ ["Ok"]
     [.Binding ⟨10, 15⟩ "value"] none rfl rfl (by decide)⟩

/-- Counterexample to C10 as stated: on `if let Some() = input.parse().ok()`
the two host invariants hold (the if-let match has one arm, the method call
carries its receiver), yet the check panics on the `y[0]` indexing of the
pattern's empty sub-pattern list, which the claim's invariants do not
cover. -/
theorem panics_on_zero_subpattern_some :
    arms_nonempty_inv eNoSub = true ∧
    check_expr cxGood eNoSub = CheckResult.panicked :=
  ⟨by decide, by decide⟩

/-- C10, amended:  The check is total at its public entry point under
the host invariants that an if-let-desugared match has at least one arm and
a method-call expression carries its receiver, *plus* the invariant that a
first-arm tuple-struct pattern rendering to `"Some"` has at least one
sub-pattern (guaranteed for type-checked code, where `Some` has exactly one
field): then none of the `body[0]`, `args[0]`, `y[0]` indexings is out of
bounds and the check never panics, returning silently for every other node
shape.  (The receiver indexing needs no separate hypothesis: it is only
reached after the zero-argument `ok`-call test, which guarantees the
argument list holds exactly the receiver.) -/
theorem no_panic_under_invariants (cx : Ctx) (e : Expr)
    (h1 : arms_nonempty_inv e = true)
    (h2 : some_pat_subpats_inv e = true) :
    check_expr cx e ≠ CheckResult.panicked := by
  unfold arms_nonempty_inv at h1
  unfold some_pat_subpats_inv at h2
  unfold check_expr check_expr_aux
  cases e with
  | Other sp => simp
  | MethodCall sp nm ms args => simp
  | Match sp op body src =>
    cases src with
    | Normal => simp
    | WhileLetDesugar => simp
    | ForLoopDesugar => simp
    | TryDesugar => simp
    | IfLetDesugar =>
      cases op with
      | Other osp => simp
      | Match osp oop obody osrc => simp
      | MethodCall opSp nm okSp args =>
        simp only [] at h1 h2 ⊢
        cases hb : body.get? 0 with
        | none =>
          cases body with
          | nil => simp at h1
          | cons b bs => simp at hb
        | some arm0 =>
          rw [hb] at h2
          simp only [] at h2 ⊢
          cases hp : arm0.pat with
          | Binding bsp bn => simp
          | Wild wsp => simp
          | TupleStruct psp q y dd =>
            rw [hp] at h2
            cases q with
            | TypeRelative => simp
            | Resolved x =>
              simp only [] at h2 ⊢
              by_cases hm : (method_chain_single
                  (Expr.MethodCall opSp nm okSp args) "ok").isSome = true
              · rw [if_pos hm]
                have hargs : nm = "ok" ∧ args.length = 1 := by
                  unfold method_chain_single at hm
                  simp only [] at hm
                  by_cases hc : nm = "ok" ∧ args.length = 1
                  · exact hc
                  · rw [if_neg hc] at hm; simp at hm
                cases args with
                | nil => exact absurd hargs.2 (by simp)
                | cons a as =>
                  have hget : (a :: as).get? 0 = some a := rfl
                  rw [hget]
                  simp only []
                  by_cases hc : ((print_path x == "Some")
                      && match_type (cx.exprTy a) paths_RESULT) = true
                  · rw [if_pos hc]
                    have hsome : (print_path x == "Some") = true :=
                      ((Bool.and_eq_true _ _).mp hc).1
                    rw [hsome] at h2
                    simp at h2
                    cases y with
                    | nil => simp at h2
                    | cons p ps =>
                      have hgp : (p :: ps).get? 0 = some p := rfl
                      rw [hgp]
                      simp
                  · rw [if_neg hc]; simp
              · rw [if_neg hm]; simp

/-- Witness for C10 (amended): the worked example satisfies all the
invariants and the check does not panic on it. -/
theorem no_panic_under_invariants_witness :
    arms_nonempty_inv eGood = true ∧ some_pat_subpats_inv eGood = true ∧
    check_expr cxGood eGood ≠ CheckResult.panicked :=
  ⟨by decide, by decide,
   no_panic_under_invariants cxGood eGood (by decide) (by decide)⟩

end IfLetSomeResult
